import Mathlib

/-!
# Verification of the marketplace database layer (`rnd/gosrv/database/db.go`)

A shallow embedding of the data-access layer of the agent-marketplace
catalog.  The relational store is modelled as explicit lists of rows;
each Go function is translated to a Lean function over that state.
Machine integers of the source (`int`) only ever hold page numbers and
sizes here, so they are modelled as `Nat` under the preconditions
`page ≥ 1`, `pageSize > 0` stated by the claims.  Fallible operations
return `Except DbError`.

The `models` package of the repository is not part of the sources given;
its record shapes are reconstructed from their field usage inside
`db.go` itself (every field read or written there appears below).
The PostgreSQL text-search engine (`to_tsvector`, `to_tsquery`,
`ts_rank`) is an external collaborator: it is modelled by explicit
function parameters (`tok`, `tsRank`), since the layer only composes
calls to it.
-/

namespace Market

/-- Lifecycle state of a catalog entry (spec §3; values written by
`db.go` as `models.SubmissionStatusPending` and compared as the SQL
literal `APPROVED`). -/
inductive SubmissionStatus where
  | PENDING
  | APPROVED
  | REJECTED
deriving DecidableEq, Repr

/-- A lexeme produced by the store's text-search tokenizer: the
normalized token together with its position (`unnest(to_tsvector($1))`
exposes `lexeme` and `positions`). -/
structure Lexeme where
  lex : String
  pos : Nat
deriving DecidableEq, Repr

/-- The `search` column: a precomputed search vector, i.e. a list of
positioned lexemes. -/
abbrev TsVector := List Lexeme

/-- Graph payload of an agent.  `db.go` reads `request.Graph.Name` and
`request.Graph.Description` (lines 87-88); the rest of the structure is
an opaque blob the layer never inspects, kept as `payload`. -/
structure Graph where
  name : String
  description : String
  payload : String
deriving DecidableEq, Repr

/-- `models.Agent` as scanned in `GetAgents` (db.go lines 53-61):
id, name, description, author, keywords, categories, graph. -/
structure Agent where
  id : String
  name : String
  description : String
  author : String
  keywords : List String
  categories : List String
  graph : Graph
deriving DecidableEq, Repr

/-- `models.AgentWithMetadata` (db.go lines 96-103 and the scan at
lines 148-161): an `Agent` plus lifecycle fields. -/
structure AgentWithMetadata where
  agent : Agent
  version : Nat
  createdAt : Nat
  updatedAt : Nat
  submissionDate : Nat
  submissionStatus : SubmissionStatus
deriving DecidableEq, Repr

/-- `models.AgentWithDownloads` as scanned in `GetTopAgentsByDownloads`
(db.go lines 248-257). -/
structure AgentWithDownloads where
  agent : Agent
  downloads : Nat
deriving DecidableEq, Repr

/-- `models.AgentFile` as scanned in `GetAgentFile`
(db.go lines 205-209): {id, name, graph}. -/
structure AgentFile where
  id : String
  name : String
  graph : Graph
deriving DecidableEq, Repr

/-- `models.AgentWithRank` as scanned in `Search`
(db.go lines 389-403): the selected columns plus the rank score.
`rank` is the value of the store's ranking function; its numeric type
is abstracted to `Int` (the layer never computes with it, only orders
by it). -/
structure AgentWithRank where
  id : String
  createdAt : Nat
  updatedAt : Nat
  version : Nat
  name : String
  description : String
  author : String
  keywords : List String
  categories : List String
  graph : Graph
  submissionStatus : SubmissionStatus
  submissionDate : Nat
  rank : Int
deriving DecidableEq, Repr

/-- A row of the `agents` table.  Columns from the INSERT list
(db.go line 115) plus `download_count` (line 181) and `search`
(line 371). -/
structure AgentRow where
  id : String
  name : String
  description : String
  author : String
  keywords : List String
  categories : List String
  graph : Graph
  version : Nat
  createdAt : Nat
  updatedAt : Nat
  submissionDate : Nat
  submissionStatus : SubmissionStatus
  downloadCount : Nat
  search : TsVector
deriving DecidableEq, Repr

/-- A row of the `featured_agent` table (db.go lines 286-287). -/
structure FeaturedRow where
  agentId : String
  featuredCategories : List String
  isActive : Bool
deriving DecidableEq, Repr

/-- A row of the `install_tracker` table (db.go lines 420-421). -/
structure InstallRow where
  marketplaceAgentId : String
  installedAgentId : String
  installationLocation : String
deriving DecidableEq, Repr

/-- The relational store: the four tables used by `db.go`.
`analyticsTracker` rows are (agent_id, downloads). -/
structure Store where
  agents : List AgentRow
  analyticsTracker : List (String × Nat)
  featuredAgent : List FeaturedRow
  installTracker : List InstallRow
deriving DecidableEq, Repr

/-- Failure taxonomy of the layer (spec §7). -/
inductive DbError where
  | notFound
  | queryFailure (msg : String)
  | scanFailure (msg : String)
  | txFailure (msg : String)
  | iterFailure (msg : String)
deriving DecidableEq, Repr

/-- Projection of a stored row to the 7 `Agent` columns
(the scan at db.go lines 53-61). -/
def AgentRow.toAgent (a : AgentRow) : Agent :=
  { id := a.id, name := a.name, description := a.description,
    author := a.author, keywords := a.keywords,
    categories := a.categories, graph := a.graph }

/-- Projection of a stored row to the 12 `AgentWithMetadata` columns
(the scan at db.go lines 148-161). -/
def AgentRow.toMeta (a : AgentRow) : AgentWithMetadata :=
  { agent := a.toAgent, version := a.version, createdAt := a.createdAt,
    updatedAt := a.updatedAt, submissionDate := a.submissionDate,
    submissionStatus := a.submissionStatus }

/-! ## ORDER BY: an insertion sort over a boolean "may precede" relation

`le x y = true` means `x` may be placed before `y` in the output.  The
SQL `ORDER BY k DESC` corresponds to `le x y := key y ≤ key x`. -/

/-- Insert `a` into `l` before the first element it may precede. -/
def insertOrd (le : α → α → Bool) (a : α) : List α → List α
  | [] => [a]
  | b :: l => if le a b then a :: b :: l else b :: insertOrd le a l

/-- Insertion sort by the relation `le`. -/
def sortOrd (le : α → α → Bool) : List α → List α
  | [] => []
  | a :: l => insertOrd le a (sortOrd le l)

/-! ## GetAgents (db.go lines 23-75) -/

/-- The percent character — LIKE's any-span wildcard. -/
def percentChar : Char := Char.ofNat 37

/-- The underscore character — LIKE's single-character wildcard. -/
def underscoreChar : Char := Char.ofNat 95

/-- Case folding of a character list (ILIKE compares case
insensitively). -/
def lowerChars (l : List Char) : List Char := l.map Char.toLower

/-- SQL LIKE matching over character lists: `%` matches any (possibly
empty) span, `_` matches exactly one character, every other pattern
character matches itself. -/
def likeMatchChars : List Char → List Char → Bool
  | [], s => s.isEmpty
  | c :: ps, s =>
    if c == percentChar then
      (s.tails).any (fun t => likeMatchChars ps t)
    else
      match s with
      | [] => false
      | d :: tl => (c == underscoreChar || d == c) && likeMatchChars ps tl

/-- SQL `s ILIKE '%' || pat || '%'` (db.go line 36).  The filter value
is a bound parameter, but LIKE wildcards *inside* it keep their
meaning: the pattern matched case-insensitively against the name is
`%` ++ pat ++ `%`. -/
def ilikeContains (s pat : String) : Bool :=
  likeMatchChars (percentChar :: lowerChars pat.data ++ [percentChar])
    (lowerChars s.data)

/-- The WHERE predicate of the `GetAgents` query (db.go lines 35-38):
status must be APPROVED; each of the three filters is applied only when
the corresponding parameter is non-NULL. -/
def getAgentsPred (name keywords categories : Option String) (a : AgentRow) : Bool :=
  a.submissionStatus == .APPROVED
  && (match name with | none => true | some n => ilikeContains a.name n)
  && (match keywords with | none => true | some k => a.keywords.contains k)
  && (match categories with | none => true | some c => a.categories.contains c)

/-- The rows produced by the `GetAgents` query (db.go lines 33-43):
filter, `ORDER BY created_at DESC`, `OFFSET (page-1)*pageSize`,
`LIMIT pageSize`. -/
def GetAgentsRows (st : Store) (page pageSize : Nat)
    (name keywords categories : Option String) : List AgentRow :=
  (((sortOrd (fun a b => Nat.ble b.createdAt a.createdAt)
      (st.agents.filter (getAgentsPred name keywords categories))).drop
        ((page - 1) * pageSize)).take pageSize)

/-- `GetAgents` (db.go lines 23-75): the page of rows projected to the
7 scanned `Agent` columns. -/
def GetAgents (st : Store) (page pageSize : Nat)
    (name keywords categories : Option String) : List Agent :=
  (GetAgentsRows st page pageSize name keywords categories).map AgentRow.toAgent

/-! ## SubmitAgent (db.go lines 77-136) -/

/-- `models.AddAgentRequest` as read in `SubmitAgent`
(db.go lines 85-93): graph, author, keywords, categories. -/
structure AddAgentRequest where
  graph : Graph
  author : String
  keywords : List String
  categories : List String
deriving DecidableEq, Repr

/-- Environment of one `SubmitAgent` call: the UUID produced by
`uuid.New()` (line 82), the instants returned by the successive
`time.Now()` calls (lines 99-101; call k yields `clock k`), and the
success of `Begin`, the INSERT `Exec`, and `Commit`. -/
structure SubmitEnv where
  freshId : String
  clock : Nat → Nat
  beginOk : Bool
  insertOk : Bool
  commitOk : Bool

/-- The stored row written by the INSERT (db.go lines 114-120).
`download_count` and `search` are not in the INSERT column list; they
take their store-side default / generated values. -/
def AgentWithMetadata.toRow (m : AgentWithMetadata) : AgentRow :=
  { id := m.agent.id, name := m.agent.name, description := m.agent.description,
    author := m.agent.author, keywords := m.agent.keywords,
    categories := m.agent.categories, graph := m.agent.graph,
    version := m.version, createdAt := m.createdAt, updatedAt := m.updatedAt,
    submissionDate := m.submissionDate, submissionStatus := m.submissionStatus,
    downloadCount := 0, search := [] }

/-- `SubmitAgent` (db.go lines 77-136).  The record is built, then
persisted inside one transaction: `Begin`, INSERT, `Commit`, with
`defer tx.Rollback` discarding the transaction on every early return
(a rollback after a successful commit is a no-op).  The committed
store is returned next to the call's result; on any failure the store
is unchanged.  The `user` parameter is Go's `interface{}`, modelled by
an arbitrary type. -/
def SubmitAgent {U : Type} (st : Store) (env : SubmitEnv)
    (request : AddAgentRequest) (user : U) :
    Except DbError AgentWithMetadata × Store :=
  let agentID := env.freshId
  let agent : Agent :=
    { id := agentID, name := request.graph.name,
      description := request.graph.description, author := request.author,
      keywords := request.keywords, categories := request.categories,
      graph := request.graph }
  let agentWithMetadata : AgentWithMetadata :=
    { agent := agent, version := 1, createdAt := env.clock 0,
      updatedAt := env.clock 1, submissionDate := env.clock 2,
      submissionStatus := .PENDING }
  if env.beginOk = false then
    (.error (.txFailure "begin"), st)
  else if env.insertOk = false then
    (.error (.txFailure "insert"), st)
  else if env.commitOk = false then
    (.error (.txFailure "commit"), st)
  else
    (.ok agentWithMetadata,
      { st with agents := st.agents ++ [agentWithMetadata.toRow] })

/-- The `Agent` struct `SubmitAgent` builds (db.go lines 85-93). -/
def submittedAgent (env : SubmitEnv) (request : AddAgentRequest) : Agent :=
  { id := env.freshId, name := request.graph.name,
    description := request.graph.description, author := request.author,
    keywords := request.keywords, categories := request.categories,
    graph := request.graph }

/-- The metadata record `SubmitAgent` builds before persisting
(db.go lines 96-103), as a function of the call's environment. -/
def submittedRecord (env : SubmitEnv) (request : AddAgentRequest) : AgentWithMetadata :=
  { agent := submittedAgent env request,
    version := 1, createdAt := env.clock 0, updatedAt := env.clock 1,
    submissionDate := env.clock 2, submissionStatus := .PENDING }

/-! ## GetAgentDetails (db.go lines 138-174), GetAgentFile (195-222) -/

/-- `GetAgentDetails`: `QueryRow` on `WHERE id = $1` — the first row
whose id matches, with no submission-status condition; `pgx.ErrNoRows`
becomes the NotFound error. -/
def GetAgentDetails (st : Store) (agentID : String) :
    Except DbError AgentWithMetadata :=
  match st.agents.find? (fun a => a.id == agentID) with
  | some row => .ok row.toMeta
  | none => .error .notFound

/-- `GetAgentFile`: same lookup, projected to {id, name, graph}. -/
def GetAgentFile (st : Store) (agentID : String) :
    Except DbError AgentFile :=
  match st.agents.find? (fun a => a.id == agentID) with
  | some row => .ok { id := row.id, name := row.name, graph := row.graph }
  | none => .error .notFound

/-! ## GetTopAgentsByDownloads (db.go lines 224-276) -/

/-- The joined relation of the page query (db.go lines 229-236):
`agents JOIN analytics_tracker ON a.id = at.agent_id` restricted to
APPROVED rows; each element is (agent row, downloads). -/
def topAgentsJoined (st : Store) : List (AgentRow × Nat) :=
  (st.agents.flatMap fun a =>
    (st.analyticsTracker.filter (fun t => t.1 == a.id)).map (fun t => (a, t.2))).filter
    (fun p => p.1.submissionStatus == .APPROVED)

/-- `GetTopAgentsByDownloads`: page of the join ordered by downloads
descending, and a total count from a second independent query that
counts `agents WHERE submission_status = 'APPROVED'` (db.go line 268)
— without the analytics join. -/
def GetTopAgentsByDownloads (st : Store) (page pageSize : Nat) :
    Except DbError (List AgentWithDownloads × Nat) :=
  let sorted := sortOrd (fun p q => Nat.ble q.2 p.2) (topAgentsJoined st)
  let rows := ((sorted.drop ((page - 1) * pageSize)).take pageSize).map
    (fun p => { agent := p.1.toAgent, downloads := p.2 })
  let totalCount :=
    (st.agents.filter (fun a => a.submissionStatus == .APPROVED)).length
  .ok (rows, totalCount)

/-! ## GetFeaturedAgents (db.go lines 278-327) -/

/-- The joined relation of the featured queries (db.go lines 283-290
and 319): `agents JOIN featured_agent ON a.id = fa.agent_id` where the
requested category is in `fa.featured_categories`, `fa.is_active`, and
the agent is APPROVED. -/
def featuredJoined (st : Store) (category : String) : List AgentRow :=
  st.agents.flatMap fun a =>
    (st.featuredAgent.filter (fun f =>
      f.agentId == a.id && f.featuredCategories.contains category
        && f.isActive && a.submissionStatus == .APPROVED)).map (fun _ => a)

/-- `GetFeaturedAgents`: page of the join ordered by creation time
descending plus a total count from a second independent query over the
same join condition. -/
def GetFeaturedAgents (st : Store) (category : String) (page pageSize : Nat) :
    Except DbError (List Agent × Nat) :=
  let qualified := featuredJoined st category
  let sorted := sortOrd (fun a b => Nat.ble b.createdAt a.createdAt) qualified
  let rows := ((sorted.drop ((page - 1) * pageSize)).take pageSize).map AgentRow.toAgent
  .ok (rows, qualified.length)

/-! ## Search (db.go lines 329-413)

The composed SQL text is reproduced verbatim (single quotes written
`\x27`, double quotes `\x22`), because the category filter and the
ORDER BY clause are built by string formatting into the query text. -/

/-- `categoryFilter` (db.go lines 334-341): each category value is
formatted *into the SQL text* with `fmt.Sprintf("'%s' = ANY(a.categories)", cat)`,
the conditions joined by " OR ". -/
def searchCategoryFilter (categories : List String) : String :=
  if categories.length > 0 then
    "AND (" ++ String.intercalate " OR "
      (categories.map (fun cat => "\x27" ++ cat ++ "\x27 = ANY(a.categories)")) ++ ")"
  else ""

/-- `orderByClause` (db.go lines 343-351). -/
def searchOrderByClause (sortBy sortOrder : String) : String :=
  if sortBy == "createdAt" || sortBy == "updatedAt" then
    "a.\x22" ++ sortBy ++ "\x22 " ++ sortOrder ++ ", rank DESC"
  else if sortBy == "name" then
    "a.name " ++ sortOrder ++ ", rank DESC"
  else
    "rank DESC, a.\x22createdAt\x22 DESC"

/-- `sqlQuery` (db.go lines 353-377): the raw query text with the two
`%s` substitution points filled by `categoryFilter` and
`orderByClause`. -/
def searchSqlQuery (categoryFilter orderByClause : String) : String :=
  "\n\t\tWITH query AS (\n\t\t\tSELECT to_tsquery(string_agg(lexeme || \x27:*\x27, \x27 & \x27 ORDER BY positions)) AS q \n\t\t\tFROM unnest(to_tsvector($1))\n\t\t)\n\t\tSELECT \n\t\t\ta.id, \n\t\t\ta.created_at, \n\t\t\ta.updated_at, \n\t\t\ta.version, \n\t\t\ta.name, \n\t\t\tLEFT(a.description, 500) AS description, \n\t\t\ta.author, \n\t\t\ta.keywords, \n\t\t\ta.categories, \n\t\t\ta.graph,\n\t\t\ta.submission_status,\n\t\t\ta.submission_date,\n\t\t\tts_rank(CAST(a.search AS tsvector), query.q) AS rank\n\t\tFROM agents a, query\n\t\tWHERE a.submission_status = \x27APPROVED\x27 "
    ++ categoryFilter ++ "\n\t\tORDER BY " ++ orderByClause
    ++ "\n\t\tLIMIT $2\n\t\tOFFSET $3\n\t"

/-- The full query text `Search` sends for given categories and sort
selection (db.go line 379, first argument). -/
def searchSqlText (categories : List String) (sortBy sortOrder : String) : String :=
  searchSqlQuery (searchCategoryFilter categories) (searchOrderByClause sortBy sortOrder)

/-- Columns of the `agents` table, from the INSERT column list
(db.go line 115) together with `download_count` (line 181) and
`search` (line 371). -/
def agentsColumns : List String :=
  ["id", "name", "description", "author", "keywords", "categories",
   "graph", "version", "created_at", "updated_at", "submission_date",
   "submission_status", "download_count", "search"]

/-- Elements at the odd positions of a list. -/
def oddIdx : List α → List α
  | [] => []
  | [_] => []
  | _ :: b :: rest => b :: oddIdx rest

/-- The double-quote character. -/
def dquoteChar : Char := Char.ofNat 34

/-- Split a character list at every occurrence of `sep` (the separator
is dropped; `n` separators yield `n+1` segments). -/
def splitAtChar (sep : Char) : List Char → List (List Char)
  | [] => [[]]
  | c :: rest =>
    match splitAtChar sep rest with
    | [] => [[]]
    | h :: t => if c == sep then [] :: h :: t else (c :: h) :: t

/-- The double-quoted identifiers occurring in a SQL fragment: the odd
segments of the split at `"` characters. -/
def quotedIdents (s : String) : List String :=
  oddIdx ((splitAtChar dquoteChar s.data).map List.asString)

/-- A composed ORDER BY clause can execute against the `agents` table
only if every double-quoted identifier it mentions is a column of that
table (PostgreSQL folds *unquoted* identifiers to lower case, but a
quoted identifier must match the stored column name exactly). -/
def orderByQuotedColumnsValid (clause : String) : Bool :=
  (quotedIdents clause).all (fun c => agentsColumns.contains c)

/-- Whether `sortOrder` is a direction keyword PostgreSQL accepts where
the composed clause interpolates it (only relevant for the three
explicit sort keys; the default clause ignores `sortOrder`). -/
def sqlSortOrderOk (sortOrder : String) : Bool :=
  sortOrder == "ASC" || sortOrder == "DESC" || sortOrder == "asc"
    || sortOrder == "desc" || sortOrder == ""

/-- The tsquery composed by the WITH clause (db.go lines 354-357):
the lexemes of `to_tsvector($1)`, ordered by their positions, each
turned into a prefix term, combined by `&`.  `tok` is the store's
tokenizer. -/
def composedPrefixTerms (tok : String → TsVector) (queryText : String) : List String :=
  (sortOrd (fun a b => Nat.ble a.pos b.pos) (tok queryText)).map Lexeme.lex

/-- The argument text handed to `to_tsquery`: prefix terms joined by
" & " in position order. -/
def tsqueryText (tok : String → TsVector) (queryText : String) : String :=
  String.intercalate " & " ((composedPrefixTerms tok queryText).map (fun l => l ++ ":*"))

/-- One prefix term matches a search vector if some lexeme of the
vector extends it. -/
def prefixTermMatches (term : String) (v : TsVector) : Bool :=
  v.any (fun l => term.isPrefixOf l.lex)

/-- A conjunction of prefix terms matches a vector if every term
does. -/
def tsqueryMatches (terms : List String) (v : TsVector) : Bool :=
  terms.all (fun t => prefixTermMatches t v)

/-- The single-quote character — the string-literal metacharacter of
the interpolated category filter. -/
def quoteChar : Char := Char.ofNat 39

/-- A category value whose raw interpolation into the query text
(db.go line 338) still denotes a plain membership test: one containing
no single quote.  A quote-bearing value restructures the composed
WHERE clause (see `searchCategoryFilter` and claim C2), so the
row-level reading below is stated by the theorems only under
`cats.all sqlSafeCategory`. -/
def sqlSafeCategory (c : String) : Bool :=
  c.data.all (fun ch => !(ch == quoteChar))

/-- The row filter of the `Search` query (db.go line 373):
`WHERE a.submission_status = 'APPROVED' %s` — the text predicate does
not appear; only approval and (when categories were supplied) the OR
of the category membership tests.  Because each category value is
interpolated verbatim into the SQL text, this membership reading is
faithful only for values satisfying `sqlSafeCategory`; every theorem
below that uses it carries that hypothesis, and the interpolation
itself is treated at the query-text level above. -/
def searchWherePred (categories : List String) (a : AgentRow) : Bool :=
  a.submissionStatus == .APPROVED
    && (if categories.length > 0 then
          categories.any (fun c => a.categories.contains c)
        else true)

/-- The projection scanned from one result row (db.go lines 358-371,
389-403): description truncated by `LEFT(a.description, 500)`, rank
computed by the store's ranking function against the composed query. -/
def searchRowToResult (tok : String → TsVector)
    (tsRank : TsVector → List String → Int) (query : String)
    (a : AgentRow) : AgentWithRank :=
  { id := a.id, createdAt := a.createdAt, updatedAt := a.updatedAt,
    version := a.version, name := a.name,
    description := a.description.take 500, author := a.author,
    keywords := a.keywords, categories := a.categories, graph := a.graph,
    submissionStatus := a.submissionStatus,
    submissionDate := a.submissionDate,
    rank := tsRank a.search (composedPrefixTerms tok query) }

/-- The "may precede" relation realizing the composed ORDER BY clause:
the selected key in the requested direction, rank descending as the
tie-break; the default clause is rank descending then creation time
descending.  (Only the `name` key yields a clause the store accepts;
the others are kept as written.) -/
def searchOrderLE (sortBy sortOrder : String) (x y : AgentWithRank) : Bool :=
  let desc := sortOrder == "DESC" || sortOrder == "desc"
  if sortBy == "createdAt" then
    (if desc then Nat.blt y.createdAt x.createdAt
     else Nat.blt x.createdAt y.createdAt)
      || (x.createdAt == y.createdAt && decide (y.rank ≤ x.rank))
  else if sortBy == "updatedAt" then
    (if desc then Nat.blt y.updatedAt x.updatedAt
     else Nat.blt x.updatedAt y.updatedAt)
      || (x.updatedAt == y.updatedAt && decide (y.rank ≤ x.rank))
  else if sortBy == "name" then
    (if desc then decide (y.name < x.name) else decide (x.name < y.name))
      || (x.name == y.name && decide (y.rank ≤ x.rank))
  else
    decide (x.rank > y.rank)
      || (x.rank == y.rank && Nat.ble y.createdAt x.createdAt)

/-- `Search` (db.go lines 329-413).  The composed query is executed:
it fails when its ORDER BY clause references a column the `agents`
table does not have, or interpolates an invalid direction keyword;
otherwise the filtered rows are projected, ordered by the composed
clause and paged. -/
def Search (st : Store) (tok : String → TsVector)
    (tsRank : TsVector → List String → Int) (query : String)
    (categories : List String) (page pageSize : Nat)
    (sortBy sortOrder : String) : Except DbError (List AgentWithRank) :=
  if orderByQuotedColumnsValid (searchOrderByClause sortBy sortOrder) = false then
    .error (.queryFailure "column does not exist")
  else if (sortBy == "createdAt" || sortBy == "updatedAt" || sortBy == "name")
      && sqlSortOrderOk sortOrder = false then
    .error (.queryFailure "syntax error")
  else
    let results := (st.agents.filter (searchWherePred categories)).map
      (searchRowToResult tok tsRank query)
    let sorted := sortOrd (searchOrderLE sortBy sortOrder) results
    .ok ((sorted.drop ((page - 1) * pageSize)).take pageSize)

/-! ## Row iteration (the `for rows.Next()` loops)

`pgx` delivers rows one at a time; when iteration is terminated early
by a connection/protocol failure, `rows.Next()` returns `false` and
the failure is reported by `rows.Err()`.  A result-set delivery is
therefore a list of raw rows (those delivered before iteration
stopped) plus the value `rows.Err()` would report. -/

/-- A result-set delivery: the raw rows obtained from `rows.Next()`,
and the error `rows.Err()` reports when iteration stopped early. -/
structure RowStream (ρ : Type) where
  rows : List ρ
  iterErr : Option String

/-- The body of every scan loop: scan each delivered row in order,
returning the first scan failure. -/
def scanAll (scan : ρ → Except DbError β) : List ρ → Except DbError (List β)
  | [] => .ok []
  | r :: rs =>
    match scan r with
    | .error e => .error e
    | .ok b =>
      match scanAll scan rs with
      | .error e => .error e
      | .ok bs => .ok (b :: bs)

/-- The row loop of `GetAgents` (db.go lines 51-71): after the loop,
`rows.Err()` is checked and a pending iteration failure is returned. -/
def getAgentsRowLoop (scan : ρ → Except DbError β)
    (rs : RowStream ρ) : Except DbError (List β) :=
  match scanAll scan rs.rows with
  | .error e => .error e
  | .ok l =>
    match rs.iterErr with
    | some e => .error (.iterFailure e)
    | none => .ok l

/-- The row loop of `Search` (db.go lines 386-409) — also of
`GetTopAgentsByDownloads` (246-263) and `GetFeaturedAgents` (300-316):
the loop ends and the scanned rows are returned; `rows.Err()` is never
consulted. -/
def uncheckedRowLoop (scan : ρ → Except DbError β)
    (rs : RowStream ρ) : Except DbError (List β) :=
  scanAll scan rs.rows

/-! ## Concrete fixtures used by witnesses and counterexamples -/

/-- A fixture graph payload. -/
def demoGraph : Graph := { name := "G", description := "d", payload := "p" }

/-- A fixture row with the given identity, name, creation instant and
status; remaining columns are inert defaults. -/
def mkRow (id name : String) (created : Nat) (status : SubmissionStatus) : AgentRow :=
  { id := id, name := name, description := "", author := "a",
    keywords := ["k1"], categories := ["c1"], graph := demoGraph,
    version := 1, createdAt := created, updatedAt := created,
    submissionDate := created, submissionStatus := status,
    downloadCount := 0, search := [] }

/-- The empty store. -/
def emptyStore : Store :=
  { agents := [], analyticsTracker := [], featuredAgent := [], installTracker := [] }

/-- A PENDING row, retrievable by its exact identifier. -/
def pendingRow : AgentRow := mkRow "p1" "PendingBot" 5 .PENDING

/-- Store holding only `pendingRow`. -/
def pendingStore : Store :=
  { agents := [pendingRow], analyticsTracker := [], featuredAgent := [], installTracker := [] }

/-- Store with one APPROVED agent absent from `analytics_tracker`. -/
def topStore : Store :=
  { agents := [mkRow "t1" "Top" 1 .APPROVED],
    analyticsTracker := [], featuredAgent := [], installTracker := [] }

/-- An APPROVED row whose search vector is empty: no prefix term can
match it. -/
def searchRow : AgentRow := mkRow "s1" "Alpha" 7 .APPROVED

/-- Store holding only `searchRow`. -/
def searchStore : Store :=
  { agents := [searchRow], analyticsTracker := [], featuredAgent := [], installTracker := [] }

/-- A fixture tokenizer standing in for the store's text engine:
"foo bar" yields the two positioned lexemes of the spec's example. -/
def demoTok (s : String) : TsVector :=
  if s == "foo bar" then [{ lex := "foo", pos := 1 }, { lex := "bar", pos := 2 }] else []

/-- A fixture ranking function: the number of matching prefix terms. -/
def countRank (v : TsVector) (terms : List String) : Int :=
  ((terms.filter (fun t => prefixTermMatches t v)).length : Int)

/-- A fixture submission request. -/
def demoRequest : AddAgentRequest :=
  { graph := demoGraph, author := "auth", keywords := ["kw"], categories := ["cat"] }

/-- Environment of a fully successful submission (constant clock). -/
def okEnv : SubmitEnv :=
  { freshId := "new1", clock := fun _ => 100,
    beginOk := true, insertOk := true, commitOk := true }

/-- Environment whose INSERT statement fails. -/
def insertFailEnv : SubmitEnv :=
  { freshId := "new1", clock := fun _ => 100,
    beginOk := true, insertOk := false, commitOk := true }

/-! ## The properties the claims assert -/

/-- What the amended claim C3 asserts of a store: the three listing
operations expose only APPROVED rows unconditionally; `Search`, whose
category filter is interpolated, exposes only APPROVED rows whenever
every supplied category value is quote-free (so that the interpolated
filter is a plain membership test); the two by-id lookups return the
stored row whatever its status. -/
def ReadVisibilitySpec (st : Store) : Prop :=
  (∀ page pageSize n k c, ∀ ag ∈ GetAgents st page pageSize n k c,
    ∃ row ∈ st.agents, row.submissionStatus = .APPROVED ∧ row.toAgent = ag)
  ∧ (∀ page pageSize rows total,
      GetTopAgentsByDownloads st page pageSize = .ok (rows, total) →
      ∀ r ∈ rows, ∃ row ∈ st.agents,
        row.submissionStatus = .APPROVED ∧ row.toAgent = r.agent)
  ∧ (∀ cat page pageSize rows total,
      GetFeaturedAgents st cat page pageSize = .ok (rows, total) →
      ∀ ag ∈ rows, ∃ row ∈ st.agents,
        row.submissionStatus = .APPROVED ∧ row.toAgent = ag)
  ∧ (∀ tok tsRank q (cats : List String) page pageSize sb so rows,
      cats.all sqlSafeCategory = true →
      Search st tok tsRank q cats page pageSize sb so = .ok rows →
      ∀ r ∈ rows, r.submissionStatus = .APPROVED)
  ∧ (∀ id row, st.agents.find? (fun a => a.id == id) = some row →
      GetAgentDetails st id = .ok row.toMeta)
  ∧ (∀ id row, st.agents.find? (fun a => a.id == id) = some row →
      GetAgentFile st id = .ok { id := row.id, name := row.name, graph := row.graph })

/-- What claim C1 asserts of a failed submission: the store is
returned unchanged, an error is surfaced, and (since the generated
identifier was fresh) no row carries it afterwards. -/
def SubmitAtomicSpec {U : Type} (st : Store) (env : SubmitEnv)
    (request : AddAgentRequest) (user : U) : Prop :=
  (SubmitAgent st env request user).2 = st
  ∧ (∃ e, (SubmitAgent st env request user).1 = .error e)
  ∧ (∀ row ∈ (SubmitAgent st env request user).2.agents, row.id ≠ env.freshId)

/-- What claim C8 asserts of a successful submission, against a clock
whose drift across the call is at most `res`. -/
def SubmitSuccessSpec {U : Type} (st : Store) (env : SubmitEnv)
    (request : AddAgentRequest) (user : U) (res : Nat) : Prop :=
  ∃ rec, (SubmitAgent st env request user).1 = .ok rec
    ∧ rec.agent.id = env.freshId
    ∧ rec.agent.author = request.author
    ∧ rec.version = 1
    ∧ rec.submissionStatus = .PENDING
    ∧ rec.createdAt = env.clock 0
    ∧ rec.updatedAt = env.clock 1
    ∧ rec.submissionDate = env.clock 2
    ∧ rec.createdAt ≤ rec.updatedAt
    ∧ rec.updatedAt ≤ rec.submissionDate
    ∧ rec.submissionDate - rec.createdAt ≤ res
    ∧ (SubmitAgent st env request user).2.agents = st.agents ++ [rec.toRow]
    ∧ ((SubmitAgent st env request user).2.agents.filter
        (fun r => r.id == env.freshId)).length = 1
    ∧ GetAgentDetails (SubmitAgent st env request user).2 env.freshId = .ok rec.toRow.toMeta
    ∧ rec.toRow.toMeta = rec

/-- What the amended claim C7 asserts of `GetTopAgentsByDownloads`:
the page lists APPROVED rows of the analytics join ordered by
downloads descending, while the independently queried total counts
every APPROVED agent — also those absent from the aggregate. -/
def TopAgentsSpec (st : Store) (page pageSize : Nat) : Prop :=
  ∃ rows total, GetTopAgentsByDownloads st page pageSize = .ok (rows, total)
    ∧ rows.length ≤ pageSize
    ∧ (∀ r ∈ rows, ∃ p ∈ topAgentsJoined st,
        p.1.submissionStatus = .APPROVED
        ∧ r = { agent := p.1.toAgent, downloads := p.2 })
    ∧ rows.Pairwise (fun a b => b.downloads ≤ a.downloads)
    ∧ total = (st.agents.filter (fun a => a.submissionStatus == .APPROVED)).length

/-- `AgentWithRank` with its rank forgotten (set to 0): the projection
under which search results should not depend on the query text. -/
def eraseRank (r : AgentWithRank) : AgentWithRank :=
  { r with rank := 0 }

/-- What the amended claim C5 asserts: under the one executable sort
key (`name`), every returned result is the projection of a stored row
passing only the approval/category filter, its rank computed from the
composed prefix terms; and the returned rows — ranks aside — are the
same for any two query texts once the page covers the whole store. -/
def SearchRankOnlySpec (st : Store) (tok : String → TsVector)
    (tsRank : TsVector → List String → Int) (q : String)
    (cats : List String) (page pageSize : Nat) (sortOrder : String) : Prop :=
  (∀ rows, Search st tok tsRank q cats page pageSize "name" sortOrder = .ok rows →
    ∀ r ∈ rows, ∃ row ∈ st.agents, searchWherePred cats row = true
      ∧ r = searchRowToResult tok tsRank q row
      ∧ r.rank = tsRank row.search (composedPrefixTerms tok q))
  ∧ (∀ q₂ rows₁ rows₂, page = 1 → st.agents.length ≤ pageSize →
      Search st tok tsRank q cats page pageSize "name" sortOrder = .ok rows₁ →
      Search st tok tsRank q₂ cats page pageSize "name" sortOrder = .ok rows₂ →
      (rows₁.map eraseRank).Perm (rows₂.map eraseRank))

/-- What the amended claim C9 asserts of the two row-loop shapes:
`GetAgents` surfaces a pending iteration failure after a clean scan,
while the loop used by `Search` (and the two join listings) returns
the scanned prefix and never consults the iteration error. -/
def RowLoopSpec {ρ β : Type} (scan : ρ → Except DbError β)
    (rs : RowStream ρ) (e : String) : Prop :=
  (rs.iterErr = some e → ∀ l, scanAll scan rs.rows = .ok l →
    getAgentsRowLoop scan rs = .error (.iterFailure e))
  ∧ uncheckedRowLoop scan rs = scanAll scan rs.rows
  ∧ uncheckedRowLoop scan { rows := rs.rows, iterErr := some e }
      = uncheckedRowLoop scan { rows := rs.rows, iterErr := none }

/-! ## Properties of the sort -/

theorem mem_insertOrd (le : α → α → Bool) (a x : α) (l : List α) :
    x ∈ insertOrd le a l ↔ x = a ∨ x ∈ l := by
  induction l with
  | nil => simp [insertOrd]
  | cons b l ih =>
      by_cases h : le a b = true
      · simp [insertOrd, h]
      · simp only [insertOrd, if_neg h, List.mem_cons, ih]
        tauto

theorem mem_sortOrd (le : α → α → Bool) (x : α) (l : List α) :
    x ∈ sortOrd le l ↔ x ∈ l := by
  induction l with
  | nil => simp [sortOrd]
  | cons a l ih => simp [sortOrd, mem_insertOrd, ih]

theorem sortOrd_perm (le : α → α → Bool) (l : List α) :
    (sortOrd le l).Perm l := by
  induction l with
  | nil => simp [sortOrd]
  | cons a l ih =>
      have h : (insertOrd le a (sortOrd le l)).Perm (a :: sortOrd le l) := by
        clear ih
        induction sortOrd le l with
        | nil => simp [insertOrd]
        | cons b m ihm =>
            by_cases hb : le a b = true
            · simp [insertOrd, hb]
            · simp only [insertOrd, if_neg hb]
              exact (ihm.cons b).trans (List.Perm.swap a b m)
      exact h.trans (ih.cons a)

theorem length_sortOrd (le : α → α → Bool) (l : List α) :
    (sortOrd le l).length = l.length :=
  (sortOrd_perm le l).length_eq

theorem pairwise_insertOrd (le : α → α → Bool)
    (htot : ∀ a b, le a b = true ∨ le b a = true)
    (htrans : ∀ a b c, le a b = true → le b c = true → le a c = true)
    (a : α) (l : List α) (h : l.Pairwise fun x y => le x y = true) :
    (insertOrd le a l).Pairwise fun x y => le x y = true := by
  induction l with
  | nil => simp [insertOrd]
  | cons b l ih =>
      rcases List.pairwise_cons.mp h with ⟨hb, hl⟩
      by_cases hab : le a b = true
      · simp only [insertOrd, if_pos hab]
        refine List.pairwise_cons.mpr ⟨?_, h⟩
        intro x hx
        rcases List.mem_cons.mp hx with rfl | hx
        · exact hab
        · exact htrans a b x hab (hb x hx)
      · have hba : le b a = true := (htot a b).resolve_left hab
        simp only [insertOrd, if_neg hab]
        refine List.pairwise_cons.mpr ⟨?_, ih hl⟩
        intro x hx
        rcases (mem_insertOrd le a x l).mp hx with rfl | hx
        · exact hba
        · exact hb x hx

theorem pairwise_sortOrd (le : α → α → Bool)
    (htot : ∀ a b, le a b = true ∨ le b a = true)
    (htrans : ∀ a b c, le a b = true → le b c = true → le a c = true)
    (l : List α) :
    (sortOrd le l).Pairwise fun x y => le x y = true := by
  induction l with
  | nil => simp [sortOrd]
  | cons a l ih => exact pairwise_insertOrd le htot htrans a (sortOrd le l) ih

/-- The descending-by-`key` relation is total. -/
theorem bleKeyDesc_total (key : α → Nat) :
    ∀ a b : α, Nat.ble (key b) (key a) = true ∨ Nat.ble (key a) (key b) = true := by
  intro a b
  rcases Nat.le_total (key b) (key a) with h | h
  · exact Or.inl (Nat.ble_eq.mpr h)
  · exact Or.inr (Nat.ble_eq.mpr h)

/-- The descending-by-`key` relation is transitive. -/
theorem bleKeyDesc_trans (key : α → Nat) :
    ∀ a b c : α, Nat.ble (key b) (key a) = true → Nat.ble (key c) (key b) = true →
      Nat.ble (key c) (key a) = true := by
  intro a b c h1 h2
  exact Nat.ble_eq.mpr (Nat.le_trans (Nat.le_of_ble_eq_true h2) (Nat.le_of_ble_eq_true h1))

/-- A page — `take pageSize` after `drop offset` — of a list sorted
descending by `key` is itself ordered descending by `key`. -/
theorem pairwise_page (key : α → Nat) (l : List α) (off n : Nat) :
    (((sortOrd (fun a b => Nat.ble (key b) (key a)) l).drop off).take n).Pairwise
      (fun a b => key b ≤ key a) := by
  have hs := pairwise_sortOrd (fun a b => Nat.ble (key b) (key a))
    (bleKeyDesc_total key) (bleKeyDesc_trans key) l
  have hsub : List.Sublist
      (((sortOrd (fun a b => Nat.ble (key b) (key a)) l).drop off).take n)
      (sortOrd (fun a b => Nat.ble (key b) (key a)) l) :=
    (List.take_sublist _ _).trans (List.drop_sublist _ _)
  exact (hs.sublist hsub).imp fun h => Nat.le_of_ble_eq_true h

/-- Membership in a page implies membership in the unsorted list. -/
theorem mem_page (le : α → α → Bool) (l : List α) (off n : Nat) (x : α)
    (h : x ∈ ((sortOrd le l).drop off).take n) : x ∈ l :=
  (mem_sortOrd le x l).mp (List.mem_of_mem_drop (List.mem_of_mem_take h))

/-! ## LIKE matching versus literal containment -/

/-- Decomposition of the `GetAgents` WHERE predicate. -/
theorem getAgentsPred_eq_true {name keywords categories : Option String}
    {a : AgentRow} (h : getAgentsPred name keywords categories a = true) :
    a.submissionStatus = .APPROVED
    ∧ (∀ s, name = some s → ilikeContains a.name s = true)
    ∧ (∀ s, keywords = some s → a.keywords.contains s = true)
    ∧ (∀ s, categories = some s → a.categories.contains s = true) := by
  unfold getAgentsPred at h
  simp only [Bool.and_eq_true, beq_iff_eq] at h
  obtain ⟨⟨⟨h1, h2⟩, h3⟩, h4⟩ := h
  refine ⟨h1, ?_, ?_, ?_⟩
  · intro s hs; rw [hs] at h2; exact h2
  · intro s hs; rw [hs] at h3; exact h3
  · intro s hs; rw [hs] at h4; exact h4

/-- Every row of a `GetAgents` page is a stored row passing the
WHERE predicate. -/
theorem mem_getAgentsRows {st : Store} {page pageSize : Nat}
    {name keywords categories : Option String} {a : AgentRow}
    (h : a ∈ GetAgentsRows st page pageSize name keywords categories) :
    a ∈ st.agents ∧ getAgentsPred name keywords categories a = true := by
  unfold GetAgentsRows at h
  have := mem_page _ _ _ _ _ h
  exact List.mem_filter.mp this

/-- Every row of a `GetTopAgentsByDownloads` page arises from the
analytics join. -/
theorem mem_topRows {st : Store} {page pageSize : Nat}
    {rows : List AgentWithDownloads} {total : Nat} {r : AgentWithDownloads}
    (h : GetTopAgentsByDownloads st page pageSize = .ok (rows, total))
    (hr : r ∈ rows) :
    ∃ p ∈ topAgentsJoined st, p.1.submissionStatus = .APPROVED
      ∧ r = { agent := p.1.toAgent, downloads := p.2 } := by
  unfold GetTopAgentsByDownloads at h
  rw [Except.ok.injEq, Prod.mk.injEq] at h
  obtain ⟨hrows, -⟩ := h
  rw [← hrows] at hr
  obtain ⟨p, hp, hpr⟩ := List.mem_map.mp hr
  have hmem := mem_page _ _ _ _ _ hp
  have hap : p.1.submissionStatus = .APPROVED := by
    have := (List.mem_filter.mp (show p ∈ _ from hmem)).2
    simpa [topAgentsJoined] using (List.mem_filter.mp hmem).2
  exact ⟨p, hmem, hap, hpr.symm⟩

/-- Every agent of a `GetFeaturedAgents` page is a stored APPROVED
row. -/
theorem mem_featuredRows {st : Store} {category : String} {page pageSize : Nat}
    {rows : List Agent} {total : Nat} {ag : Agent}
    (h : GetFeaturedAgents st category page pageSize = .ok (rows, total))
    (hr : ag ∈ rows) :
    ∃ row ∈ st.agents, row.submissionStatus = .APPROVED ∧ row.toAgent = ag := by
  unfold GetFeaturedAgents at h
  rw [Except.ok.injEq, Prod.mk.injEq] at h
  obtain ⟨hrows, -⟩ := h
  rw [← hrows] at hr
  obtain ⟨row, hrow, hpr⟩ := List.mem_map.mp hr
  have hmem := mem_page _ _ _ _ _ hrow
  unfold featuredJoined at hmem
  obtain ⟨a, ha, hfa⟩ := List.mem_flatMap.mp hmem
  obtain ⟨f, hf, hfeq⟩ := List.mem_map.mp hfa
  have hcond := (List.mem_filter.mp hf).2
  simp only [Bool.and_eq_true, beq_iff_eq] at hcond
  subst hfeq
  exact ⟨a, ha, hcond.2, hpr⟩

/-- Every result of a successful `Search` is the projection of a
stored row passing the approval/category filter. -/
theorem mem_search_ok {st : Store} {tok : String → TsVector}
    {tsRank : TsVector → List String → Int} {q : String}
    {cats : List String} {page pageSize : Nat} {sb so : String}
    {rows : List AgentWithRank} {r : AgentWithRank}
    (h : Search st tok tsRank q cats page pageSize sb so = .ok rows)
    (hr : r ∈ rows) :
    ∃ row ∈ st.agents, searchWherePred cats row = true
      ∧ r = searchRowToResult tok tsRank q row := by
  unfold Search at h
  by_cases h1 : orderByQuotedColumnsValid (searchOrderByClause sb so) = false
  · rw [if_pos h1] at h; exact absurd h (by simp)
  · rw [if_neg h1] at h
    by_cases h2 : ((sb == "createdAt" || sb == "updatedAt" || sb == "name")
        && sqlSortOrderOk so = false) = true
    · rw [if_pos h2] at h; exact absurd h (by simp)
    · rw [if_neg h2] at h
      rw [Except.ok.injEq] at h
      rw [← h] at hr
      have hmem := mem_page _ _ _ _ _ hr
      obtain ⟨row, hrow, hpr⟩ := List.mem_map.mp hmem
      have := List.mem_filter.mp hrow
      exact ⟨row, this.1, this.2, hpr.symm⟩

/-- The approval/category filter of `Search` forces approval. -/
theorem searchWherePred_approved {cats : List String} {a : AgentRow}
    (h : searchWherePred cats a = true) : a.submissionStatus = .APPROVED := by
  unfold searchWherePred at h
  simp only [Bool.and_eq_true, beq_iff_eq] at h
  exact h.1

/-! ## Claim C1 -/

/-- C1: `SubmitAgent` is atomic.  For every failure occurring at the
INSERT statement or at commit (whatever the state of `Begin`), the
deferred rollback discards the transaction before the error is
returned: the operation surfaces an error, the store is exactly its
pre-submission state, and — the generated identifier being fresh — no
row with that identifier exists afterwards. -/
theorem submitAgent_atomic {U : Type} (st : Store) (env : SubmitEnv)
    (request : AddAgentRequest) (user : U)
    (hfail : env.insertOk = false ∨ env.commitOk = false)
    (hfresh : env.freshId ∉ st.agents.map AgentRow.id) :
    SubmitAtomicSpec st env request user := by
  have hid : ∀ row ∈ st.agents, row.id ≠ env.freshId := by
    intro row hrow heq
    exact hfresh (heq ▸ List.mem_map_of_mem AgentRow.id hrow)
  have key : ∃ e, SubmitAgent st env request user = (.error e, st) := by
    unfold SubmitAgent
    by_cases hb : env.beginOk = false
    · exact ⟨.txFailure "begin", by rw [if_pos hb]⟩
    · rcases hfail with h | h
      · exact ⟨.txFailure "insert", by rw [if_neg hb, if_pos h]⟩
      · by_cases hi : env.insertOk = false
        · exact ⟨.txFailure "insert", by rw [if_neg hb, if_pos hi]⟩
        · exact ⟨.txFailure "commit", by rw [if_neg hb, if_neg hi, if_pos h]⟩
  obtain ⟨e, he⟩ := key
  unfold SubmitAtomicSpec
  rw [he]
  exact ⟨rfl, ⟨e, rfl⟩, hid⟩

/-- Witness for C1: a concrete submission whose INSERT fails leaves
the empty store empty. -/
theorem submitAgent_atomic_witness :
    (insertFailEnv.insertOk = false ∨ insertFailEnv.commitOk = false)
    ∧ SubmitAtomicSpec emptyStore insertFailEnv demoRequest "alice" :=
  ⟨Or.inl rfl, submitAgent_atomic emptyStore insertFailEnv demoRequest "alice"
    (Or.inl rfl) (by decide)⟩

/-! ## Claim C8 -/

/-- C8: a successful `SubmitAgent` returns (and persists) a record
with the freshly allocated identifier, version 1, status PENDING, and
created-at = updated-at = submission-date up to the clock drift `res`
across the three `time.Now()` calls; the persisted row is unique for
that identifier, and `GetAgentDetails` on the new identifier returns
exactly the record. -/
theorem submitAgent_success_fields {U : Type} (st : Store) (env : SubmitEnv)
    (request : AddAgentRequest) (user : U) (res : Nat)
    (hb : env.beginOk = true) (hi : env.insertOk = true) (hc : env.commitOk = true)
    (hfresh : env.freshId ∉ st.agents.map AgentRow.id)
    (hmono : ∀ i j, i ≤ j → env.clock i ≤ env.clock j)
    (hres : env.clock 2 - env.clock 0 ≤ res) :
    SubmitSuccessSpec st env request user res := by
  have hid : ∀ row ∈ st.agents, ¬(row.id == env.freshId) = true := by
    intro row hrow heq
    exact hfresh (beq_iff_eq.mp heq ▸ List.mem_map_of_mem AgentRow.id hrow)
  have hrun : SubmitAgent st env request user =
      (Except.ok (submittedRecord env request),
        { st with agents := st.agents ++ [(submittedRecord env request).toRow] }) := by
    simp only [SubmitAgent, hb, hi, hc, submittedRecord]
    rfl
  refine ⟨_, by rw [hrun], rfl, rfl, rfl, rfl, rfl, rfl, rfl,
    hmono 0 1 (by omega), hmono 1 2 (by omega), hres, by rw [hrun], ?_, ?_, rfl⟩
  · rw [hrun]
    show (List.filter _ (st.agents ++ [_])).length = 1
    rw [List.filter_append, List.filter_eq_nil_iff.mpr hid]
    simp [AgentWithMetadata.toRow, submittedRecord, submittedAgent]
  · rw [hrun]
    unfold GetAgentDetails
    rw [List.find?_append, List.find?_eq_none.mpr hid]
    simp [AgentWithMetadata.toRow, submittedRecord, submittedAgent]

/-- Witness for C8: a concrete successful submission into the empty
store under a constant clock. -/
theorem submitAgent_success_witness :
    SubmitSuccessSpec emptyStore okEnv demoRequest "bob" 0 :=
  submitAgent_success_fields emptyStore okEnv demoRequest "bob" 0 rfl rfl rfl
    (by decide) (fun _ _ _ => Nat.le_refl 100) (by decide)

/-! ## Claim C10 -/

/-- C10: `SubmitAgent` never reads its submitter argument — for any
two values (of any types) of the `user` parameter and the same
request, the call's outcome (returned record and committed store) is
identical, and the author field of the record is taken from the
request. -/
theorem submitAgent_submitter_independent {U V : Type} (st : Store)
    (env : SubmitEnv) (request : AddAgentRequest) (u : U) (v : V) :
    SubmitAgent st env request u = SubmitAgent st env request v
    ∧ (∀ rec, (SubmitAgent st env request u).1 = .ok rec →
        rec.agent.author = request.author) := by
  refine ⟨rfl, ?_⟩
  intro rec h
  unfold SubmitAgent at h
  by_cases hb : env.beginOk = false
  · rw [if_pos hb] at h; exact absurd h (by simp)
  · rw [if_neg hb] at h
    by_cases hi : env.insertOk = false
    · rw [if_pos hi] at h; exact absurd h (by simp)
    · rw [if_neg hi] at h
      by_cases hc : env.commitOk = false
      · rw [if_pos hc] at h; exact absurd h (by simp)
      · rw [if_neg hc] at h
        simp only [Except.ok.injEq] at h
        rw [← h]

/-- Witness for C10 at two submitters of different types. -/
theorem submitAgent_submitter_independent_witness :
    SubmitAgent emptyStore okEnv demoRequest (3 : Nat)
      = SubmitAgent emptyStore okEnv demoRequest "ann"
    ∧ (∀ rec, (SubmitAgent emptyStore okEnv demoRequest (3 : Nat)).1 = .ok rec →
        rec.agent.author = demoRequest.author) :=
  submitAgent_submitter_independent emptyStore okEnv demoRequest 3 "ann"

/-! ## Claim C4 -/

/-- C3 counterexample: `GetAgentDetails` has no submission-status
condition — requested by its exact identifier, a PENDING entry *is*
returned, contradicting the claim that only APPROVED entries are
visible to every read operation. -/
theorem getAgentDetails_returns_pending :
    GetAgentDetails pendingStore "p1" = .ok pendingRow.toMeta
    ∧ pendingRow.toMeta.submissionStatus = .PENDING :=
  ⟨rfl, rfl⟩

/-- An element of the analytics join is a stored agent row. -/
theorem topJoined_fst_mem {st : Store} {p : AgentRow × Nat}
    (h : p ∈ topAgentsJoined st) : p.1 ∈ st.agents := by
  unfold topAgentsJoined at h
  have h1 := (List.mem_filter.mp h).1
  obtain ⟨a, ha, hma⟩ := List.mem_flatMap.mp h1
  obtain ⟨t, ht, hteq⟩ := List.mem_map.mp hma
  rw [← hteq]
  exact ha

/-- C3 (amended): the listing operations (`GetAgents`,
`GetTopAgentsByDownloads`, `GetFeaturedAgents`) expose only APPROVED
entries, and so does `Search` whenever every supplied category value
is free of quote metacharacters (its category filter is interpolated
into the SQL text, so a quote-bearing value restructures the WHERE
clause — claim C2 — and voids the guarantee); the by-identifier
lookups (`GetAgentDetails`, `GetAgentFile`) return the stored row
regardless of its submission-status. -/
theorem read_visibility (st : Store) : ReadVisibilitySpec st := by
  refine ⟨?_, ?_, ?_, ?_, ?_, ?_⟩
  · intro page pageSize n k c ag hag
    obtain ⟨row, hrow, hproj⟩ := List.mem_map.mp hag
    obtain ⟨hmem, hpred⟩ := mem_getAgentsRows hrow
    exact ⟨row, hmem, (getAgentsPred_eq_true hpred).1, hproj⟩
  · intro page pageSize rows total h r hr
    obtain ⟨p, hp, hap, hpr⟩ := mem_topRows h hr
    exact ⟨p.1, topJoined_fst_mem hp, hap, by rw [hpr]⟩
  · intro cat page pageSize rows total h ag hag
    exact mem_featuredRows h hag
  · intro tok tsRank q cats page pageSize sb so rows hsafe h r hr
    obtain ⟨row, hrow, hpred, hpr⟩ := mem_search_ok h hr
    rw [hpr]
    exact searchWherePred_approved hpred
  · intro id row h
    unfold GetAgentDetails
    rw [h]
  · intro id row h
    unfold GetAgentFile
    rw [h]

/-- Witness for C3 applied to the store holding a PENDING row. -/
theorem read_visibility_witness : ReadVisibilitySpec pendingStore :=
  read_visibility pendingStore

/-! ## Claim C7 -/

/-- C7 counterexample: over a store whose single APPROVED agent is
absent from `analytics_tracker`, the download listing is empty — no
entry qualifies for it — yet the reported total is 1: the second
query counts all APPROVED agents, not the entries qualifying for the
listing. -/
theorem topAgents_count_mismatch :
    GetTopAgentsByDownloads topStore 1 10 = .ok ([], 1)
    ∧ topAgentsJoined topStore = [] :=
  ⟨rfl, rfl⟩

/-- C7 (amended): `GetTopAgentsByDownloads` pages the APPROVED rows
of the analytics join ordered by downloads descending, but the
independently queried totalCount counts every APPROVED agent —
including those absent from the download aggregate. -/
theorem topAgents_spec (st : Store) (page pageSize : Nat) :
    TopAgentsSpec st page pageSize := by
  refine ⟨_, _, rfl, ?_, ?_, ?_, rfl⟩
  · rw [List.length_map]
    exact List.length_take_le _ _
  · intro r hr
    exact mem_topRows rfl hr
  · exact List.pairwise_map.mpr (pairwise_page Prod.snd _ _ _)

/-- Witness for C7 over the store with an untracked APPROVED agent. -/
theorem topAgents_spec_witness : TopAgentsSpec topStore 1 10 :=
  topAgents_spec topStore 1 10

/-! ## Claim C9 -/

/-- C9 counterexample: the row loop used by `Search` reports success
with the partial row list even though iteration terminated with a
pending failure — the failure is swallowed, not returned. -/
theorem search_loop_swallows_iteration_failure :
    uncheckedRowLoop (fun n : Nat => Except.ok n)
      { rows := [7], iterErr := some "connection reset" } = .ok [7] := rfl

/-- C9 (amended): `GetAgents` checks `rows.Err()` after its loop and
surfaces a pending iteration failure, but the loop shape shared by
`Search`, `GetTopAgentsByDownloads` and `GetFeaturedAgents` never
consults the iteration error: those operations report success with
the scanned prefix. -/
theorem row_loop_spec {ρ β : Type} (scan : ρ → Except DbError β)
    (rs : RowStream ρ) (e : String) : RowLoopSpec scan rs e := by
  refine ⟨?_, rfl, rfl⟩
  intro hie l hl
  unfold getAgentsRowLoop
  rw [hl, hie]

/-- Witness for C9 at a concrete delivery with an iteration failure. -/
theorem row_loop_spec_witness :
    RowLoopSpec (fun n : Nat => Except.ok n)
      { rows := [7], iterErr := some "reset" } "reset" :=
  row_loop_spec _ _ _

/-! ## Claim C6 -/

/-- C6: the fallback ordering does not succeed.  For every
unrecognized or omitted `sortBy`, the composed ORDER BY clause is
`rank DESC, a."createdAt" DESC`; its quoted identifier `createdAt` is
not a column of the `agents` table (the code's own queries read
`created_at`), so the composed query cannot execute and `Search`
fails instead of returning the rank-descending fallback ordering. -/
theorem search_fallback_invalid_column (sortBy sortOrder : String)
    (h1 : sortBy ≠ "createdAt") (h2 : sortBy ≠ "updatedAt") (h3 : sortBy ≠ "name") :
    searchOrderByClause sortBy sortOrder = "rank DESC, a.\x22createdAt\x22 DESC"
    ∧ quotedIdents (searchOrderByClause sortBy sortOrder) = ["createdAt"]
    ∧ "createdAt" ∉ agentsColumns
    ∧ orderByQuotedColumnsValid (searchOrderByClause sortBy sortOrder) = false
    ∧ (∀ st tok tsRank q cats page pageSize,
        Search st tok tsRank q cats page pageSize sortBy sortOrder
          = .error (.queryFailure "column does not exist")) := by
  have b1 : (sortBy == "createdAt") = false := beq_eq_false_iff_ne.mpr h1
  have b2 : (sortBy == "updatedAt") = false := beq_eq_false_iff_ne.mpr h2
  have b3 : (sortBy == "name") = false := beq_eq_false_iff_ne.mpr h3
  have e1 : searchOrderByClause sortBy sortOrder
      = "rank DESC, a.\x22createdAt\x22 DESC" := by
    simp [searchOrderByClause, b1, b2, b3]
  have hv : orderByQuotedColumnsValid (searchOrderByClause sortBy sortOrder) = false := by
    rw [e1]; decide
  refine ⟨e1, by rw [e1]; decide, by decide, hv, ?_⟩
  intro st tok tsRank q cats page pageSize
  unfold Search
  rw [if_pos hv]

/-- Witness for C6 at the unrecognized sort key "popularity". -/
theorem search_fallback_invalid_column_witness :
    searchOrderByClause "popularity" "ASC" = "rank DESC, a.\x22createdAt\x22 DESC"
    ∧ quotedIdents (searchOrderByClause "popularity" "ASC") = ["createdAt"]
    ∧ "createdAt" ∉ agentsColumns
    ∧ orderByQuotedColumnsValid (searchOrderByClause "popularity" "ASC") = false
    ∧ (∀ st tok tsRank q cats page pageSize,
        Search st tok tsRank q cats page pageSize "popularity" "ASC"
          = .error (.queryFailure "column does not exist")) :=
  search_fallback_invalid_column "popularity" "ASC"
    (by decide) (by decide) (by decide)

/-! ## Claim C2 -/

set_option maxRecDepth 8000 in
/-- C2: refuted on the code — `Search` interpolates every category
value verbatim into the SQL text between single quotes; two distinct
single category values already yield two distinct composed query
strings, and a value containing quote metacharacters rewrites the
structure of the filter (the SQL-injection shape the spec forbids). -/
theorem search_category_interpolated :
    searchCategoryFilter ["toys"] = "AND (\x27toys\x27 = ANY(a.categories))"
    ∧ searchCategoryFilter ["toys"] ≠ searchCategoryFilter ["games"]
    ∧ searchSqlText ["toys"] "name" "ASC" ≠ searchSqlText ["games"] "name" "ASC"
    ∧ searchCategoryFilter ["a\x27) OR (\x271\x27=\x271"]
        = "AND (\x27a\x27) OR (\x271\x27=\x271\x27 = ANY(a.categories))" :=
  ⟨by decide, by decide, by decide, by decide⟩

/-! ## Claim C5 -/

/-- The rows of a successful `Search` are the paged sort of the
projected filtered rows. -/
theorem search_ok_rows {st : Store} {tok : String → TsVector}
    {tsRank : TsVector → List String → Int} {q : String}
    {cats : List String} {page pageSize : Nat} {sb so : String}
    {rows : List AgentWithRank}
    (h : Search st tok tsRank q cats page pageSize sb so = .ok rows) :
    rows = ((sortOrd (searchOrderLE sb so)
      ((st.agents.filter (searchWherePred cats)).map
        (searchRowToResult tok tsRank q))).drop
          ((page - 1) * pageSize)).take pageSize := by
  unfold Search at h
  by_cases h1 : orderByQuotedColumnsValid (searchOrderByClause sb so) = false
  · rw [if_pos h1] at h; exact absurd h (by simp)
  · rw [if_neg h1] at h
    by_cases h2 : ((sb == "createdAt" || sb == "updatedAt" || sb == "name")
        && sqlSortOrderOk so = false) = true
    · rw [if_pos h2] at h; exact absurd h (by simp)
    · rw [if_neg h2] at h
      rw [Except.ok.injEq] at h
      exact h.symm

/-- C5 counterexample: the composed tsquery is absent from the WHERE
clause — an APPROVED agent whose search vector matches neither the
"foo"- nor the "bar"-prefix term is still returned by
`Search("foo bar", …)`. -/
theorem search_returns_nonmatching_agent :
    Search searchStore demoTok countRank "foo bar" [] 1 10 "name" "ASC"
      = .ok [searchRowToResult demoTok countRank "foo bar" searchRow]
    ∧ tsqueryMatches (composedPrefixTerms demoTok "foo bar") searchRow.search = false :=
  ⟨rfl, rfl⟩

/-- C5 (amended): `Search` composes the tsquery as the AND of the
query's prefix lexemes in position order, but uses it only in the
ranking expression.  Provided every supplied category value is free
of quote metacharacters (so the interpolated category filter is a
plain membership test — see claim C2 for the quote-bearing case),
every returned result is the projection of a stored row passing just
the approval/category filter, with its rank computed against the
composed terms; and — ranks aside — the returned rows are the same
for any two query texts once the page covers the whole store. -/
theorem search_rank_only (st : Store) (tok : String → TsVector)
    (tsRank : TsVector → List String → Int) (q : String) (cats : List String)
    (page pageSize : Nat) (sortOrder : String)
    (hsafe : cats.all sqlSafeCategory = true) :
    SearchRankOnlySpec st tok tsRank q cats page pageSize sortOrder := by
  constructor
  · intro rows h r hr
    obtain ⟨row, hrow, hpred, hpr⟩ := mem_search_ok h hr
    exact ⟨row, hrow, hpred, hpr, by rw [hpr]; rfl⟩
  · intro q₂ rows₁ rows₂ hpage hlen h1 h2
    have e1 := search_ok_rows h1
    have e2 := search_ok_rows h2
    rw [hpage] at e1 e2
    have hz : (1 - 1) * pageSize = 0 := by omega
    rw [hz, List.drop_zero] at e1 e2
    have hl1 : (sortOrd (searchOrderLE "name" sortOrder)
        ((st.agents.filter (searchWherePred cats)).map
          (searchRowToResult tok tsRank q))).length ≤ pageSize := by
      rw [length_sortOrd, List.length_map]
      exact le_trans (List.length_filter_le _ _) hlen
    have hl2 : (sortOrd (searchOrderLE "name" sortOrder)
        ((st.agents.filter (searchWherePred cats)).map
          (searchRowToResult tok tsRank q₂))).length ≤ pageSize := by
      rw [length_sortOrd, List.length_map]
      exact le_trans (List.length_filter_le _ _) hlen
    rw [List.take_of_length_le hl1] at e1
    rw [List.take_of_length_le hl2] at e2
    rw [e1, e2]
    refine ((sortOrd_perm _ _).map eraseRank).trans
      (List.Perm.trans ?_ (((sortOrd_perm _ _).map eraseRank).symm))
    rw [List.map_map, List.map_map]
    exact List.Perm.refl _

/-- Witness for C5 over the store with a non-matching APPROVED
agent, at a (vacuously) quote-free category list. -/
theorem search_rank_only_witness :
    ([] : List String).all sqlSafeCategory = true
    ∧ SearchRankOnlySpec searchStore demoTok countRank "foo bar" [] 1 10 "ASC" :=
  ⟨rfl, search_rank_only searchStore demoTok countRank "foo bar" [] 1 10 "ASC" rfl⟩

end Market
